import Mathlib

/-!
Verification of the SafeScale Resource Orchestration Core against its
natural-language specification.

The development shallowly embeds the relevant Go code:

* the `scerr`/`fail` error model (`errCore` with message, cause,
  consequences, fields; `Error()` / `CauseFormatter()` / `AddConsequence`)
  from `src/lib/server/iaas/stacks/gcp/compute.go` (the file holds the
  `scerr` package sources);
* the generic persistent object `Core` (`Carry` / `Read` / `Alter` /
  `Reload` / `Delete` / `write` / `readByReference`) from
  `src/lib/server/resources/operations/core.go`;
* the network resource operations (`Create`'s gateway naming, `Delete`,
  `deleteGateway`) from `src/unnamed/part_001`.

Stateful Go code becomes explicit state passing: object storage is a pair
of association lists (the `byID` and `byName` indices), provider-driver
calls are oracles recorded in a call trace.  Fallible Go code returns
`Except` / `Option`.  Helpers whose sources are not in the repository
snapshot (the `retry`, `strprocess` and `concurrency.Shielded` packages,
the metadata `folder`) are modelled from the specification; each such
definition says so in its doc comment.
-/

/-! ## Error model (package scerr, src/lib/server/iaas/stacks/gcp/compute.go)

`errCore` is the implementation of interface `Error`.  A Go `error` is
either such a structured error or an opaque foreign error exposing only
its `Error()` string (constructor `basic`).  The `fields` map is modelled
as an association list of key/value strings.  The gRPC code is a `Nat`. -/

inductive GoError : Type where
  | basic (msg : String) : GoError
  | core (message : String) (causer : Option GoError)
      (fieldsMap : List (String × String)) (consequences : List GoError)
      (grpcCode : Nat) : GoError
deriving Repr

/-- `json.Marshal` of the fields map, as used by `errCore.FieldsFormatter`:
a JSON object with one member per entry, in insertion order. -/
def fieldsFormatter (f : List (String × String)) : String :=
  let rec members : List (String × String) → String
    | [] => ""
    | [(k, v)] => "\x22" ++ k ++ "\x22:\x22" ++ v ++ "\x22"
    | (k, v) :: rest => "\x22" ++ k ++ "\x22:\x22" ++ v ++ "\x22," ++ members rest
  "\x7b" ++ members f ++ "\x7d"

/-- The accumulation loop of `CauseFormatter` over already-rendered
consequence strings: `msg += con.Error(); if ind+1 < len \x7b msg += ";" \x7d`,
i.e. the strings separated by `;`. -/
def joinSemi : List String → String
  | [] => ""
  | [s] => s
  | s :: rest => s ++ ";" ++ joinSemi rest

mutual

/-- The `Error()` string of a Go error.  `basic` errors render their
message; `errCore.Error()` is `Message + CauseFormatter()` plus the fields
block when the fields map is non-empty, exactly as in the source:

    msgFinal := e.Message
    msgFinal += e.CauseFormatter()
    if len(e.Fields) > 0 \x7b msgFinal += "\nWith fields: " + e.FieldsFormatter() \x7d

`CauseFormatter()` appends ` [caused by \x7b…\x7d]` when the cause is
non-nil, then `[with consequences \x7b…;…\x7d]` when consequences exist,
the consequences' `Error()` strings separated by `;`. -/
def errorString : GoError → String
  | .basic msg => msg
  | .core m c f q _ =>
    let causePart :=
      match c with
      | none => ""
      | some ce => " [caused by \x7b" ++ errorString ce ++ "\x7d]"
    let conseqPart :=
      match q with
      | [] => ""
      | _ :: _ => "[with consequences \x7b" ++ joinSemiErr q ++ "\x7d]"
    let fieldsPart :=
      if f.length > 0 then "\nWith fields: " ++ fieldsFormatter f else ""
    m ++ causePart ++ conseqPart ++ fieldsPart

/-- The consequence loop of `CauseFormatter`: each consequence's `Error()`
string, separated by `;`. -/
def joinSemiErr : List GoError → String
  | [] => ""
  | [e] => errorString e
  | e :: rest => errorString e ++ ";" ++ joinSemiErr rest

end

/-- `errCore.AddConsequence` (method): a nil consequence leaves the error
unchanged; a non-nil one is appended at the end of the consequences list.
`basic` errors have no such method; the constructor is returned unchanged
so that the package-level wrapper below can reuse this function. -/
def addConsequence : GoError → Option GoError → GoError
  | .core m c f q g, some err => .core m c f (q ++ [err]) g
  | e, _ => e

/-- Package-level `scerr.AddConsequence(err, cons)`: nil `err` stays nil;
an `err` implementing `Error` delegates to the method when `cons` is
non-nil and is returned as-is otherwise; a foreign error is logged and
returned unchanged. -/
def addConsequenceFn (err : Option GoError) (cons : Option GoError) : Option GoError :=
  match err with
  | none => none
  | some e =>
    match e, cons with
    | .core m c f q g, some x => some (addConsequence (.core m c f q g) (some x))
    | e, _ => some e

/-- Projection: the message of a structured error (`basic` has only its
rendered string). -/
def goMessage : GoError → String
  | .basic m => m
  | .core m _ _ _ _ => m

/-- Projection: the direct cause (`errCore.Cause()` returns `e.Causer`). -/
def goCause : GoError → Option GoError
  | .basic _ => none
  | .core _ c _ _ _ => c

/-- Projection: the consequences list (`errCore.Consequences()`). -/
def goConsequences : GoError → List GoError
  | .basic _ => []
  | .core _ _ _ q _ => q

theorem joinSemiErr_eq_joinSemi_map (l : List GoError) :
    joinSemiErr l = joinSemi (l.map errorString) := by
  induction l with
  | nil => rfl
  | cons e rest ih =>
    cases rest with
    | nil => rfl
    | cons e' rest' =>
      simp only [joinSemiErr, List.map_cons, joinSemi]
      rw [ih]
      simp only [List.map_cons]

/-- C8: the formatted string of a structured error decomposes as
message, cause segment (present exactly when a cause is), consequence
segment (present exactly when consequences are, each consequence's string
separated from the next by `;`), and fields segment (present exactly when
the fields map is non-empty). -/
theorem errCore_error_format (m : String) (c : Option GoError)
    (f : List (String × String)) (q : List GoError) (g : Nat) :
    errorString (.core m c f q g) =
      m
      ++ (match c with
          | none => ""
          | some ce => " [caused by \x7b" ++ errorString ce ++ "\x7d]")
      ++ (match q with
          | [] => ""
          | _ :: _ =>
            "[with consequences \x7b"
              ++ joinSemi (q.map errorString) ++ "\x7d]")
      ++ (if f = [] then "" else "\nWith fields: " ++ fieldsFormatter f) := by
  rw [errorString.eq_def]
  cases c <;> cases q <;> cases f <;>
    simp [joinSemiErr_eq_joinSemi_map, List.length_cons]

/-- C10: `errCore.AddConsequence` with a nil consequence is the identity;
with a non-nil consequence the new error is appended at the end of the
consequences list while message and cause stay untouched; the package-level
`AddConsequence` wrapper with a nil consequence returns any error as-is. -/
theorem addConsequence_spec (m : String) (c : Option GoError)
    (f : List (String × String)) (q : List GoError) (g : Nat) :
    addConsequence (.core m c f q g) none = .core m c f q g
    ∧ (∀ x : GoError,
        addConsequence (.core m c f q g) (some x) = .core m c f (q ++ [x]) g)
    ∧ (∀ o : Option GoError,
        goMessage (addConsequence (.core m c f q g) o) = m
        ∧ goCause (addConsequence (.core m c f q g) o) = c)
    ∧ (∀ e : GoError, addConsequenceFn (some e) none = some e) := by
  refine ⟨rfl, fun x => rfl, fun o => ?_, fun e => ?_⟩
  · cases o <;> exact ⟨rfl, rfl⟩
  · cases e <;> rfl

/-! ## Operational error taxonomy (packages fail / scerr / retry)

The operational code of `core.go` and of the network resource only
inspects the dynamic type of an error (`*fail.ErrNotFound`,
`*fail.ErrTimeout`, `retry.ErrStopRetry`, …) and its message, so the
embedding uses one inductive of error kinds.  `stopRetry` and
`retryTimeout` stand for `retry.ErrStopRetry` / `retry.ErrTimeout`;
`wrap` is `fail.Wrap`; `errList` is `fail.NewErrorList`;
`withConsequence` records an `AddConsequence` mutation; `other` stands
for any foreign error. -/

inductive FailErr : Type where
  | notFound (msg : String)
  | notAvailable (msg : String)
  | invalidInstance
  | invalidParameter (what why : String)
  | duplicate (msg : String)
  | invalidRequest (msg : String)
  | timeout (msg : String)
  | aborted
  | inconsistent (msg : String)
  | stopRetry (inner : FailErr)
  | retryTimeout (msg : String)
  | wrap (msg : String) (cause : FailErr)
  | errList (errs : List FailErr)
  | withConsequence (primary conseq : FailErr)
  | other (msg : String)
deriving Repr

/-- `_, ok := err.(*fail.ErrNotFound)` — the type switch arm for NotFound. -/
def FailErr.isNotFound : FailErr → Bool
  | .notFound _ => true
  | _ => false

/-- The type switch arm for `*fail.ErrInvalidInstance`. -/
def FailErr.isInvalidInstance : FailErr → Bool
  | .invalidInstance => true
  | _ => false

/-- Success or NotFound: the outcomes `network.deleteGateway` treats as
"goal state achieved" for one of its two steps. -/
def notFoundOrNil : Option FailErr → Bool
  | none => true
  | some (.notFound _) => true
  | some _ => false

/-! ## network.deleteGateway (src/unnamed/part_001:720-751)

The helper deletes the provider host (`svc.DeleteHost(gw.ID)`) and then
the host's metadata (`gw.core.Delete(task)`).  The two outcomes are passed
in as the oracles `provDel` and `metaDel` (`none` = success). -/

/-- The `errors` slice accumulated by `network.deleteGateway`: for each of
the two steps, NotFound is skipped (success), a Timeout is wrapped with a
timeout message, any other failure is wrapped with a generic message. -/
def deleteGatewayErrors (name : String) (provDel metaDel : Option FailErr) :
    List FailErr :=
  (match provDel with
   | none => []
   | some (.notFound _) => []
   | some (.timeout m) =>
     [.wrap ("failed to delete host '" ++ name ++ "', timeout") (.timeout m)]
   | some e => [.wrap ("failed to delete host '" ++ name ++ "'") e])
  ++ (match metaDel with
   | none => []
   | some (.notFound _) => []
   | some (.timeout m) =>
     [.wrap "timeout trying to delete gateway metadata" (.timeout m)]
   | some e => [.wrap ("failed to delete gateway '" ++ name ++ "' metadata") e])

/-- `network.deleteGateway`: returns `fail.NewErrorList(errors)` when the
accumulated list is non-empty, nil otherwise. -/
def deleteGatewayResult (name : String) (provDel metaDel : Option FailErr) :
    Option FailErr :=
  let errors := deleteGatewayErrors name provDel metaDel
  if errors.length > 0 then some (.errList errors) else none

/-- C7: `deleteGateway` succeeds (returns nil) exactly when each of its two
steps succeeded or failed with NotFound; otherwise it returns the
accumulated failures as a single error list. -/
theorem deleteGateway_spec (name : String) (provDel metaDel : Option FailErr) :
    (deleteGatewayResult name provDel metaDel = none ↔
      (notFoundOrNil provDel = true ∧ notFoundOrNil metaDel = true))
    ∧ (deleteGatewayResult name provDel metaDel = none ↔
      deleteGatewayErrors name provDel metaDel = [])
    ∧ (deleteGatewayErrors name provDel metaDel ≠ [] →
      deleteGatewayResult name provDel metaDel =
        some (.errList (deleteGatewayErrors name provDel metaDel))) := by
  refine ⟨?_, ?_, ?_⟩
  · rcases provDel with _ | e
    · rcases metaDel with _ | e'
      · simp [deleteGatewayResult, deleteGatewayErrors, notFoundOrNil]
      · cases e' <;> simp [deleteGatewayResult, deleteGatewayErrors, notFoundOrNil]
    · rcases metaDel with _ | e'
      · cases e <;> simp [deleteGatewayResult, deleteGatewayErrors, notFoundOrNil]
      · cases e <;> cases e' <;>
          simp [deleteGatewayResult, deleteGatewayErrors, notFoundOrNil]
  · rw [deleteGatewayResult]
    cases h : deleteGatewayErrors name provDel metaDel <;> simp
  · intro h
    rw [deleteGatewayResult]
    cases hl : deleteGatewayErrors name provDel metaDel with
    | nil => exact absurd hl h
    | cons a l => simp [hl]

/-- C7 witness: a concrete run where the provider host is already gone
(NotFound) and the metadata deletion fails with a timeout: the single
accumulated failure comes back as an error list. -/
theorem deleteGateway_spec_witness :
    deleteGatewayErrors "gw-net1" (some (.notFound "absent"))
        (some (.timeout "slow")) ≠ []
    ∧ deleteGatewayResult "gw-net1" (some (.notFound "absent"))
        (some (.timeout "slow")) =
      some (.errList [.wrap "timeout trying to delete gateway metadata"
        (.timeout "slow")]) := by
  refine ⟨?_, ?_⟩
  · intro h
    exact absurd ((deleteGateway_spec "gw-net1" (some (.notFound "absent"))
      (some (.timeout "slow"))).2.1.mpr h) (by simp [deleteGatewayResult, deleteGatewayErrors])
  · exact (deleteGateway_spec "gw-net1" (some (.notFound "absent"))
      (some (.timeout "slow"))).2.2 (by simp [deleteGatewayErrors])

/-! ## Gateway naming in network.Create (src/unnamed/part_001:478-500) -/

/-- The failover flag: `failover := req.HA`, forced to false when the
provider capabilities lack `PrivateVirtualIP` (with a warning). -/
def computeFailover (reqHA capsPrivateVirtualIP : Bool) : Bool :=
  if reqHA && !capsPrivateVirtualIP then false else reqHA

/-- Gateway name derivation of `network.Create`:

    if failover || gwname == "" \x7b primaryGatewayName = "gw-" + networkName \x7d
    else \x7b primaryGatewayName = gwname \x7d
    if failover \x7b secondaryGatewayName = "gw2-" + networkName \x7d

The secondary name is `none` when failover is off (the Go variable stays
`""` and is never used). -/
def gatewayNames (failover : Bool) (gwname networkName : String) :
    String × Option String :=
  let primaryGatewayName :=
    if failover || gwname = "" then "gw-" ++ networkName else gwname
  let secondaryGatewayName :=
    if failover then some ("gw2-" ++ networkName) else none
  (primaryGatewayName, secondaryGatewayName)

/-- C5 counterexample: with failover on and an explicit gateway name
supplied, the code names the primary gateway `gw-<networkName>`, not the
explicit name the claim predicts. -/
theorem gatewayNames_explicit_ha_counterexample :
    (gatewayNames true "mygw" "net1").1 = "gw-net1"
    ∧ (gatewayNames true "mygw" "net1").1 ≠ "mygw" := by
  exact ⟨rfl, by decide⟩

/-- C5 amended: the primary gateway name equals the explicit gateway name
only when one is supplied *and* failover is off; when failover is on or no
explicit name is supplied it is `gw-<networkName>`; the secondary name,
used only when failover is on, is `gw2-<networkName>`. -/
theorem gatewayNames_spec (failover : Bool) (gwname networkName : String) :
    (failover = false → gwname ≠ "" →
      (gatewayNames failover gwname networkName).1 = gwname)
    ∧ (failover = true ∨ gwname = "" →
      (gatewayNames failover gwname networkName).1 = "gw-" ++ networkName)
    ∧ (failover = true →
      (gatewayNames failover gwname networkName).2 = some ("gw2-" ++ networkName))
    ∧ (failover = false → (gatewayNames failover gwname networkName).2 = none) := by
  refine ⟨fun hf hg => ?_, fun h => ?_, fun hf => ?_, fun hf => ?_⟩
  · subst hf; simp [gatewayNames, hg]
  · rcases h with hf | hg
    · subst hf; simp [gatewayNames]
    · subst hg; simp [gatewayNames]
  · subst hf; simp [gatewayNames]
  · subst hf; simp [gatewayNames]

/-- C5 amended witness: concrete instances of each clause. -/
theorem gatewayNames_spec_witness :
    (gatewayNames false "mygw" "net1").1 = "mygw"
    ∧ (gatewayNames true "" "net2").1 = "gw-net2"
    ∧ (gatewayNames true "" "net2").2 = some "gw2-net2" := by
  refine ⟨(gatewayNames_spec false "mygw" "net1").1 rfl (by decide), ?_, ?_⟩
  · exact (gatewayNames_spec true "" "net2").2.1 (Or.inl rfl)
  · exact (gatewayNames_spec true "" "net2").2.2.1 rfl

/-! ## Metadata payloads and object storage

The payload carried by a `Core` must implement `data.Identifyable`
(`SafeGetID` / `SafeGetName`) and `data.Serializable`
(`Serialize` / `Deserialize`); it is modelled as an identity pair plus an
opaque body. -/

structure Payload where
  id : String
  name : String
  body : String
deriving DecidableEq, Repr

/-- `Serialize` of a payload: an injective rendering of its three fields.
(The Go code serialises to JSON; any injective encoding carries the
claims, which only compare serialised buffers for equality.) -/
def serializePayload (p : Payload) : String :=
  p.id ++ "|" ++ p.name ++ "|" ++ p.body

/-- Splitting a character list at `|`, for `deserializePayload`. -/
def splitBar : List Char → List (List Char)
  | [] => [[]]
  | c :: rest =>
    let r := splitBar rest
    if c = '|' then [] :: r
    else
      match r with
      | [] => [[c]]
      | g :: gs => (c :: g) :: gs

/-- `Deserialize`: parses the three fields back; fails on any other shape. -/
def deserializePayload (buf : String) : Option Payload :=
  match (splitBar buf.toList).map List.asString with
  | [i, n, b] => some ⟨i, n, b⟩
  | _ => none

/-- One index of the metadata folder: an association list from key to the
stored serialised buffer. -/
def getEntry : List (String × String) → String → Option String
  | [], _ => none
  | (k', v) :: rest, k => if k' = k then some v else getEntry rest k

/-- Store a buffer under a key, replacing any previous entry. -/
def setEntry : List (String × String) → String → String → List (String × String)
  | [], k, v => [(k, v)]
  | (k', v') :: rest, k, v =>
    if k' = k then (k, v) :: rest else (k', v') :: setEntry rest k v

/-- Remove a key. -/
def delEntry : List (String × String) → String → List (String × String)
  | [], _ => []
  | (k', v') :: rest, k =>
    if k' = k then delEntry rest k else (k', v') :: delEntry rest k

/-- Modelled from the spec (§3, §4.5 MetadataFolder; the repository
snapshot has no folder.go, only its callers in core.go): the folder is
rooted at `<bucket>/<kind>/` and split into the two subfolders
`byID/<id>` and `byName/<name>`; `Read` fails with NotFound when the
entry is absent, `Write` stores bytes under a key, `Search` reports
presence (NotFound when absent), `Delete` removes an entry. -/
structure Storage where
  byID : List (String × String)
  byName : List (String × String)
deriving DecidableEq, Repr

/-- The two subfolder names `byIDFolderName` / `byNameFolderName`. -/
inductive SubFolder : Type where
  | byID
  | byName
deriving DecidableEq, Repr

/-- `folder.Read(sub, key, …)` up to the deserialisation callback: the
stored buffer, or NotFound. -/
def folderRead (st : Storage) (sub : SubFolder) (key : String) :
    Except FailErr String :=
  match (match sub with
         | .byID => getEntry st.byID key
         | .byName => getEntry st.byName key) with
  | some buf => .ok buf
  | none =>
    .error (.notFound ("failed to find metadata entry '" ++ key ++ "'"))

/-- `folder.Write(sub, key, buf)`. -/
def folderWrite (st : Storage) (sub : SubFolder) (key buf : String) : Storage :=
  match sub with
  | .byID => { st with byID := setEntry st.byID key buf }
  | .byName => { st with byName := setEntry st.byName key buf }

/-- `folder.Search(sub, key)`: nil when present, NotFound otherwise. -/
def folderSearch (st : Storage) (sub : SubFolder) (key : String) :
    Option FailErr :=
  match (match sub with
         | .byID => getEntry st.byID key
         | .byName => getEntry st.byName key) with
  | some _ => none
  | none => some (.notFound ("no metadata entry '" ++ key ++ "'"))

/-- `folder.Delete(sub, key)`. -/
def folderDelete (st : Storage) (sub : SubFolder) (key : String) : Storage :=
  match sub with
  | .byID => { st with byID := delEntry st.byID key }
  | .byName => { st with byName := delEntry st.byName key }

/-! ## The Core persistent object (src/lib/server/resources/operations/core.go)

`Core` carries the kind, the `Shielded` payload carrier and the cached
name/id (`atomic.Value`s whose failed type assertion reads as `""`).
The `concurrency.Shielded` wrapper is not in the snapshot; it is modelled
from the spec (§3, §4.4): a cloneable payload; `Alter` hands the callback
a deep clone and commits it on success, and deserialising into the carrier
replaces its content.  The carrier is `Option Payload` (`none` = the Go
nil `*Shielded`).  Go's nil-task and nil-callback parameter guards are
not modelled: Lean values cannot be nil. -/

structure Core where
  kind : String
  shielded : Option Payload
  id : String
  name : String
deriving DecidableEq, Repr

/-- `Core.IsNull`: true for the nil pointer (not representable here), the
empty kind, or the `nullCore()` kind `"nil"`. -/
def Core.IsNull (c : Core) : Bool :=
  c.kind = "" || c.kind = "nil"

/-- `Core.SafeGetID`: `"<NullCore>"` on a null instance, else the cached
id (`""` when never stored). -/
def Core.SafeGetID (c : Core) : String :=
  if c.IsNull then "<NullCore>" else c.id

/-- `Core.SafeGetName`. -/
def Core.SafeGetName (c : Core) : String :=
  if c.IsNull then "<NullCore>" else c.name

/-- `Core.updateIdentity`: with a carrier, cache the payload's name and
id; without one, cache empty strings. -/
def Core.updateIdentity (c : Core) : Core :=
  match c.shielded with
  | some p => { c with id := p.id, name := p.name }
  | none => { c with id := "", name := "" }

/-- `Core.readByID`: read `byID/<id>` and deserialise into the carrier. -/
def Core.readByID (c : Core) (st : Storage) (id : String) :
    Except FailErr Core :=
  match folderRead st .byID id with
  | .error e => .error e
  | .ok buf =>
    match deserializePayload buf with
    | none => .error (.other "failed to deserialize metadata")
    | some p => .ok { c with shielded := some p }

/-- `Core.readByName`. -/
def Core.readByName (c : Core) (st : Storage) (name : String) :
    Except FailErr Core :=
  match folderRead st .byName name with
  | .error e => .error e
  | .ok buf =>
    match deserializePayload buf with
    | none => .error (.other "failed to deserialize metadata")
    | some p => .ok { c with shielded := some p }

/-- `Core.readByReference`: try the reference as an id; on NotFound (and
only then) retry it as a name. -/
def Core.readByReference (c : Core) (st : Storage) (ref : String) :
    Except FailErr Core :=
  match c.readByID st ref with
  | .ok c' => .ok c'
  | .error e =>
    if e.isNotFound then c.readByName st ref else .error e

/-- `Core.write`: serialise the carried payload once and store the same
buffer under `byName/<name>` then `byID/<id>`, the identity taken from
the payload itself.  (The source's failed-type-assertion branches cannot
arise in the typed embedding; `Serialize` of a payload never fails.)
A nil carrier would be a nil dereference in Go, modelled as an opaque
runtime error. -/
def Core.write (c : Core) (st : Storage) : Except FailErr Storage :=
  match c.shielded with
  | none => .error (.other "runtime error: nil shielded")
  | some p =>
    let buf := serializePayload p
    let st1 := folderWrite st .byName p.name buf
    .ok (folderWrite st1 .byID p.id buf)

/-- `Core.Reload`: read `byID/<cached id>`; NotFound becomes
`NotFound("the metadata of <kind> '<name>' vanished")`. -/
def Core.Reload (c : Core) (st : Storage) : Except FailErr Core :=
  if c.IsNull then .error .invalidInstance
  else
    match c.readByID st c.SafeGetID with
    | .error e =>
      if e.isNotFound then
        .error (.notFound
          ("the metadata of " ++ c.kind ++ " '" ++ c.name ++ "' vanished"))
      else .error e
    | .ok c' => .ok c'

/-- `Core.Alter`: guard, writer lock, `Reload`, `shielded.Alter(callback)`,
then `write`; the possibly-updated storage is returned alongside the
result so that "no write occurred" is observable. -/
def Core.Alter (c : Core) (st : Storage)
    (callback : Payload → Except FailErr Payload) :
    Except FailErr Core × Storage :=
  if c.IsNull then (.error .invalidInstance, st)
  else
    match c.Reload st with
    | .error e => (.error e, st)
    | .ok c1 =>
      match c1.shielded with
      | none => (.error (.other "runtime error: nil shielded"), st)
      | some p =>
        match callback p with
        | .error e => (.error e, st)
        | .ok p' =>
          let c2 := { c1 with shielded := some p' }
          match c2.write st with
          | .error e => (.error e, st)
          | .ok st' => (.ok c2, st')

/-- `Core.Carry`: pin a payload into a non-carrying instance
(`NotAvailable` when already carrying), update the cached identity, then
perform the initial `write`. -/
def Core.Carry (c : Core) (st : Storage) (p : Payload) :
    Except FailErr Core × Storage :=
  if c.IsNull then (.error .invalidInstance, st)
  else
    match c.shielded with
    | some _ => (.error (.notAvailable "already carrying a shielded value"), st)
    | none =>
      let c1 := Core.updateIdentity { c with shielded := some p }
      match c1.write st with
      | .error e => (.error e, st)
      | .ok st' => (.ok c1, st')

/-- `Core.Delete`: search both indices (a missing one is tolerated),
delete those present, null the carrier.  In the model `Search` and
`Delete` can only fail with NotFound, so the non-NotFound propagation
branches of the source cannot fire. -/
def Core.Delete (c : Core) (st : Storage) : Except FailErr Core × Storage :=
  if c.IsNull then (.error .invalidInstance, st)
  else
    let i := c.SafeGetID
    let n := c.SafeGetName
    let idFound := (folderSearch st .byID i).isNone
    let nameFound := (folderSearch st .byName n).isNone
    let st1 := if idFound then folderDelete st .byID i else st
    let st2 := if nameFound then folderDelete st1 .byName n else st1
    (.ok { c with shielded := none }, st2)

/-- The typed outcomes of the retry loop. -/
inductive RetryResult (α : Type) : Type where
  | ok (a : α)
  | stopped (e : FailErr)
  | timedOut
deriving Repr

/-- Modelled from the spec (§4.6 and component J, retry helpers; package
lib/utils/retry is not in the snapshot):
`retry.WhileUnsuccessfulDelay1Second(action, budget)` runs the action once
per second starting at attempt 0; a nil return stops the loop with
success, a `StopRetryError` outcome aborts it immediately and is returned
as the `ErrStopRetry` wrapper, any other error is retried while the
budget allows, and an exhausted budget yields `retry.ErrTimeout`.  The
10-second budget with a 1-second delay gives 10 attempts. -/
def retryLoop {α : Type} (action : Nat → Except FailErr α) :
    Nat → Nat → RetryResult α
  | _, 0 => .timedOut
  | t, fuel + 1 =>
    match action t with
    | .ok a => .ok a
    | .error (.stopRetry e) => .stopped (.stopRetry e)
    | .error _ => retryLoop action (t + 1) fuel

/-- The closure `Core.Read` passes to the retry helper: resolve the
reference via `readByReference`; a NotFound failure is returned as-is
(retriable), any other failure is wrapped in `StopRetryError`. -/
def Core.readAttempt (c : Core) (st : Storage) (ref : String) :
    Except FailErr Core :=
  match c.readByReference st ref with
  | .ok c' => .ok c'
  | .error e => if e.isNotFound then .error e else .error (.stopRetry e)

/-- `Core.Read`: guards (null instance, empty ref, already carrying), then
the retry loop around `readByReference`; a retry timeout converts to
`NotFound("failed to load metadata of <kind> '<ref>'")`, a stopped retry
returns the `ErrStopRetry` wrapper unchanged; on success the cached
identity is updated from the loaded payload. -/
def Core.Read (c : Core) (st : Storage) (ref : String) :
    Except FailErr Core :=
  if c.IsNull then .error .invalidInstance
  else if ref = "" then .error (.invalidParameter "ref" "cannot be empty string")
  else
    match c.shielded with
    | some _ => .error (.notAvailable "metadata is already carrying a value")
    | none =>
      match retryLoop (fun _ => c.readAttempt st ref) 0 10 with
      | .timedOut =>
        .error (.notFound
          ("failed to load metadata of " ++ c.kind ++ " '" ++ ref ++ "'"))
      | .stopped e => .error e
      | .ok c' => .ok c'.updateIdentity

/-! ## Lemmas about the storage indices -/

theorem getEntry_setEntry_self (l : List (String × String)) (k v : String) :
    getEntry (setEntry l k v) k = some v := by
  induction l with
  | nil => simp [setEntry, getEntry]
  | cons kv rest ih =>
    obtain ⟨k', v'⟩ := kv
    by_cases h : k' = k
    · simp [setEntry, getEntry, h]
    · simp [setEntry, getEntry, h, ih]

theorem getEntry_delEntry_self (l : List (String × String)) (k : String) :
    getEntry (delEntry l k) k = none := by
  induction l with
  | nil => simp [delEntry, getEntry]
  | cons kv rest ih =>
    obtain ⟨k', v'⟩ := kv
    by_cases h : k' = k
    · simp [delEntry, h, ih]
    · simp [delEntry, getEntry, h, ih]

/-- A reload that returned a value implies the instance was not null. -/
theorem Core.Reload_ok_not_null (c : Core) (st : Storage) (c1 : Core)
    (hR : c.Reload st = .ok c1) : c.IsNull = false := by
  cases hx : c.IsNull with
  | false => rfl
  | true =>
    simp only [Core.Reload, hx, if_true] at hR
    exact Except.noConfusion hR

/-- C2: when the Alter callback fails, `Core.Alter` returns the callback's
error and performs no write: the returned storage is exactly the input
storage, hence every `byID` and `byName` entry keeps the bytes it had
after the `Reload` done at the start of the Alter (a `Reload` never
modifies storage). -/
theorem core_alter_callback_error (c : Core) (st : Storage)
    (cb : Payload → Except FailErr Payload) (c1 : Core) (p : Payload)
    (e : FailErr) (hR : c.Reload st = .ok c1) (hs : c1.shielded = some p)
    (hcb : cb p = .error e) :
    Core.Alter c st cb = (.error e, st)
    ∧ (∀ key, getEntry (Core.Alter c st cb).2.byID key = getEntry st.byID key)
    ∧ (∀ key, getEntry (Core.Alter c st cb).2.byName key = getEntry st.byName key) := by
  have hnull := Core.Reload_ok_not_null c st c1 hR
  have hA : Core.Alter c st cb = (.error e, st) := by
    simp only [Core.Alter, hnull, Bool.false_eq_true, if_false, hR, hs, hcb]
  exact ⟨hA, fun key => by rw [hA], fun key => by rw [hA]⟩

/-- C2 witness: a concrete core whose reload succeeds and whose callback
reports a failure; the alter returns it and the storage is untouched. -/
theorem core_alter_callback_error_witness :
    Core.Alter
        { kind := "network", shielded := some ⟨"i1", "n1", "x"⟩,
          id := "i1", name := "n1" }
        { byID := [("i1", serializePayload ⟨"i1", "n1", "x"⟩)],
          byName := [("n1", serializePayload ⟨"i1", "n1", "x"⟩)] }
        (fun _ => .error (.other "boom")) =
      (.error (.other "boom"),
        { byID := [("i1", serializePayload ⟨"i1", "n1", "x"⟩)],
          byName := [("n1", serializePayload ⟨"i1", "n1", "x"⟩)] }) :=
  (core_alter_callback_error
    { kind := "network", shielded := some ⟨"i1", "n1", "x"⟩,
      id := "i1", name := "n1" }
    { byID := [("i1", serializePayload ⟨"i1", "n1", "x"⟩)],
      byName := [("n1", serializePayload ⟨"i1", "n1", "x"⟩)] }
    (fun _ => .error (.other "boom"))
    { kind := "network", shielded := some ⟨"i1", "n1", "x"⟩,
      id := "i1", name := "n1" }
    ⟨"i1", "n1", "x"⟩ (.other "boom") rfl rfl rfl).1

/-- `Core.write` stores the one serialised buffer under both indices. -/
theorem core_write_both (c : Core) (st st' : Storage) (p : Payload)
    (hs : c.shielded = some p) (h : c.write st = .ok st') :
    getEntry st'.byID p.id = some (serializePayload p)
    ∧ getEntry st'.byName p.name = some (serializePayload p) := by
  simp only [Core.write, hs] at h
  cases h
  simp [folderWrite, getEntry_setEntry_self]

/-- C3: after every successful `Core.Alter`, and after a successful
`Core.Carry`, the bytes stored under `byID/<id>` and `byName/<name>` of
the carried resource are the one serialised buffer, hence identical. -/
theorem core_alter_carry_identical_bytes (c : Core) (st : Storage)
    (cb : Payload → Except FailErr Payload) (p0 : Payload) :
    (∀ c' st', Core.Alter c st cb = (.ok c', st') →
      ∃ p, c'.shielded = some p
        ∧ getEntry st'.byID p.id = some (serializePayload p)
        ∧ getEntry st'.byName p.name = some (serializePayload p)
        ∧ getEntry st'.byID p.id = getEntry st'.byName p.name)
    ∧ (∀ c' st', Core.Carry c st p0 = (.ok c', st') →
      ∃ p, c'.shielded = some p
        ∧ getEntry st'.byID p.id = some (serializePayload p)
        ∧ getEntry st'.byName p.name = some (serializePayload p)
        ∧ getEntry st'.byID p.id = getEntry st'.byName p.name) := by
  constructor
  · intro c' st' h
    simp only [Core.Alter] at h
    split at h
    · simp at h
    · split at h
      · simp at h
      · rename_i c1 hR
        split at h
        · simp at h
        · rename_i p hs
          split at h
          · simp at h
          · rename_i p' hcb
            split at h
            · simp at h
            · rename_i stw hw
              injection h with h1 h2
              injection h1 with h1
              subst h1
              subst h2
              obtain ⟨hid, hname⟩ := core_write_both
                { c1 with shielded := some p' } st stw p' rfl hw
              exact ⟨p', rfl, hid, hname, by rw [hid, hname]⟩
  · intro c' st' h
    simp only [Core.Carry] at h
    split at h
    · simp at h
    · split at h
      · simp at h
      · rename_i hs
        split at h
        · simp at h
        · rename_i stw hw
          injection h with h1 h2
          injection h1 with h1
          subst h1
          subst h2
          have hsh' : (Core.updateIdentity { c with shielded := some p0 }).shielded
              = some p0 := by
            simp [Core.updateIdentity]
          obtain ⟨hid, hname⟩ := core_write_both
            (Core.updateIdentity { c with shielded := some p0 }) st stw p0 hsh' hw
          exact ⟨p0, hsh', hid, hname, by rw [hid, hname]⟩

/-- C3 witness: a concrete successful Alter and a concrete successful
Carry, with both index entries equal to the serialised payload. -/
theorem core_alter_carry_identical_bytes_witness :
    (∃ p, (Core.Alter
        { kind := "network", shielded := some ⟨"i1", "n1", "x"⟩,
          id := "i1", name := "n1" }
        { byID := [("i1", serializePayload ⟨"i1", "n1", "x"⟩)],
          byName := [("n1", serializePayload ⟨"i1", "n1", "x"⟩)] }
        (fun q => .ok { q with body := "y" })).1 =
          .ok { kind := "network", shielded := some p, id := "i1", name := "n1" }
      ∧ getEntry (Core.Alter
        { kind := "network", shielded := some ⟨"i1", "n1", "x"⟩,
          id := "i1", name := "n1" }
        { byID := [("i1", serializePayload ⟨"i1", "n1", "x"⟩)],
          byName := [("n1", serializePayload ⟨"i1", "n1", "x"⟩)] }
        (fun q => .ok { q with body := "y" })).2.byID p.id =
        getEntry (Core.Alter
        { kind := "network", shielded := some ⟨"i1", "n1", "x"⟩,
          id := "i1", name := "n1" }
        { byID := [("i1", serializePayload ⟨"i1", "n1", "x"⟩)],
          byName := [("n1", serializePayload ⟨"i1", "n1", "x"⟩)] }
        (fun q => .ok { q with body := "y" })).2.byName p.name)
    ∧ (∃ p, (Core.Carry
        { kind := "network", shielded := none, id := "", name := "" }
        { byID := [], byName := [] } ⟨"i2", "n2", "z"⟩).1 =
          .ok { kind := "network", shielded := some p, id := "i2", name := "n2" }
      ∧ getEntry (Core.Carry
        { kind := "network", shielded := none, id := "", name := "" }
        { byID := [], byName := [] } ⟨"i2", "n2", "z"⟩).2.byID p.id =
        getEntry (Core.Carry
        { kind := "network", shielded := none, id := "", name := "" }
        { byID := [], byName := [] } ⟨"i2", "n2", "z"⟩).2.byName p.name) := by
  constructor
  · refine ⟨⟨"i1", "n1", "y"⟩, rfl, ?_⟩
    have h := (core_alter_carry_identical_bytes
      { kind := "network", shielded := some ⟨"i1", "n1", "x"⟩,
        id := "i1", name := "n1" }
      { byID := [("i1", serializePayload ⟨"i1", "n1", "x"⟩)],
        byName := [("n1", serializePayload ⟨"i1", "n1", "x"⟩)] }
      (fun q => .ok { q with body := "y" }) ⟨"i2", "n2", "z"⟩).1
      { kind := "network", shielded := some ⟨"i1", "n1", "y"⟩,
        id := "i1", name := "n1" }
      { byID := [("i1", serializePayload ⟨"i1", "n1", "y"⟩)],
        byName := [("n1", serializePayload ⟨"i1", "n1", "y"⟩)] } rfl
    obtain ⟨p, hp, _, _, hsame⟩ := h
    obtain rfl : p = ⟨"i1", "n1", "y"⟩ := by
      cases hp; rfl
    exact hsame
  · refine ⟨⟨"i2", "n2", "z"⟩, rfl, ?_⟩
    have h := (core_alter_carry_identical_bytes
      { kind := "network", shielded := none, id := "", name := "" }
      { byID := [], byName := [] } (fun q => .ok q) ⟨"i2", "n2", "z"⟩).2
      { kind := "network", shielded := some ⟨"i2", "n2", "z"⟩,
        id := "i2", name := "n2" }
      { byID := [("i2", serializePayload ⟨"i2", "n2", "z"⟩)],
        byName := [("n2", serializePayload ⟨"i2", "n2", "z"⟩)] } rfl
    obtain ⟨p, hp, _, _, hsame⟩ := h
    obtain rfl : p = ⟨"i2", "n2", "z"⟩ := by
      cases hp; rfl
    exact hsame

/-- Classifier for the claim "reports InvalidInstance": true only for an
`ErrInvalidInstance` outcome. -/
def reportsInvalidInstance : Except FailErr Core → Bool
  | .error .invalidInstance => true
  | _ => false

/-- A concrete carrying core used to exercise `Core.Delete`. -/
def coreC6 : Core :=
  { kind := "network", shielded := some ⟨"i1", "n1", "x"⟩, id := "i1", name := "n1" }

/-- Its storage: both indices populated with the serialised payload. -/
def stC6 : Storage :=
  { byID := [("i1", serializePayload ⟨"i1", "n1", "x"⟩)],
    byName := [("n1", serializePayload ⟨"i1", "n1", "x"⟩)] }

/-- C6 counterexample: after a successful `Core.Delete`, a subsequent
`Alter` does *not* report `InvalidInstance` — `Delete` nulls only the
carrier, not the kind, so `IsNull` still answers false and the `Alter`
proceeds to its mandatory `Reload`, which fails with the NotFound
"metadata vanished" error instead. -/
theorem core_delete_then_alter_counterexample :
    (Core.Delete coreC6 stC6).1 = .ok { coreC6 with shielded := none }
    ∧ Core.IsNull { coreC6 with shielded := none } = false
    ∧ reportsInvalidInstance
        (Core.Alter { coreC6 with shielded := none } (Core.Delete coreC6 stC6).2
          (fun q => .ok q)).1 = false
    ∧ (Core.Alter { coreC6 with shielded := none } (Core.Delete coreC6 stC6).2
        (fun q => .ok q)).1 =
      .error (.notFound "the metadata of network 'n1' vanished") :=
  ⟨rfl, rfl, rfl, rfl⟩

/-- C6 amended: a successful `Core.Delete` nulls the carrier and removes
both index entries, but leaves the kind — hence `IsNull` — unchanged, so
a subsequent `Alter` does not fail fast with `InvalidInstance`; it fails
with the `NotFound` "metadata vanished" error produced by the mandatory
`Reload` on the deleted metadata. -/
theorem core_delete_post (c : Core) (st : Storage) (c' : Core) (st' : Storage)
    (hnull : c.IsNull = false) (h : Core.Delete c st = (.ok c', st')) :
    c'.shielded = none
    ∧ c'.kind = c.kind
    ∧ c'.IsNull = false
    ∧ getEntry st'.byID c.id = none
    ∧ getEntry st'.byName c.name = none
    ∧ ∀ cb, (Core.Alter c' st' cb).1 =
        .error (.notFound
          ("the metadata of " ++ c.kind ++ " '" ++ c.name ++ "' vanished")) := by
  have hid : c.SafeGetID = c.id := by simp [Core.SafeGetID, hnull]
  have hnm : c.SafeGetName = c.name := by simp [Core.SafeGetName, hnull]
  simp only [Core.Delete, hnull, Bool.false_eq_true, if_false, hid, hnm] at h
  injection h with h1 h2
  injection h1 with h1
  subst h1
  subst h2
  have keyID : getEntry (if (folderSearch st .byID c.id).isNone = true
      then folderDelete st .byID c.id else st).byID c.id = none := by
    cases hg : getEntry st.byID c.id with
    | some v => simp [folderSearch, folderDelete, hg, getEntry_delEntry_self]
    | none => simp [folderSearch, hg]
  have keyID2 : getEntry
      (if (folderSearch st .byName c.name).isNone = true then
        folderDelete (if (folderSearch st .byID c.id).isNone = true
          then folderDelete st .byID c.id else st) .byName c.name
      else (if (folderSearch st .byID c.id).isNone = true
        then folderDelete st .byID c.id else st)).byID c.id = none := by
    cases hn : (folderSearch st .byName c.name).isNone with
    | true => simpa [hn, folderDelete] using keyID
    | false => simpa [hn] using keyID
  have hmid : (if (folderSearch st .byID c.id).isNone = true
      then folderDelete st .byID c.id else st).byName = st.byName := by
    cases hi : (folderSearch st .byID c.id).isNone <;> simp [hi, folderDelete]
  have keyName : getEntry
      (if (folderSearch st .byName c.name).isNone = true then
        folderDelete (if (folderSearch st .byID c.id).isNone = true
          then folderDelete st .byID c.id else st) .byName c.name
      else (if (folderSearch st .byID c.id).isNone = true
        then folderDelete st .byID c.id else st)).byName c.name = none := by
    cases hg : getEntry st.byName c.name with
    | some v =>
      have hs : (folderSearch st .byName c.name).isNone = true := by
        simp [folderSearch, hg]
      simp [hs, folderDelete, hmid, getEntry_delEntry_self]
    | none =>
      have hs : (folderSearch st .byName c.name).isNone = false := by
        simp [folderSearch, hg]
      simp [hs, hmid, hg]
  have hnull' : Core.IsNull { c with shielded := none } = false := hnull
  have hsid : Core.SafeGetID { c with shielded := none } = c.id := by
    simp [Core.SafeGetID, hnull']
  refine ⟨rfl, rfl, hnull', keyID2, keyName, fun cb => ?_⟩
  simp [Core.Alter, Core.Reload, Core.readByID, folderRead, hnull', hsid,
    keyID2, FailErr.isNotFound]

/-- C6 amended witness: the concrete deletion where both indices were
populated; the carrier is nulled, the entries are gone, and the follow-up
Alter fails with the NotFound "vanished" error. -/
theorem core_delete_post_witness :
    getEntry (Core.Delete coreC6 stC6).2.byID "i1" = none
    ∧ getEntry (Core.Delete coreC6 stC6).2.byName "n1" = none
    ∧ (Core.Alter { coreC6 with shielded := none } (Core.Delete coreC6 stC6).2
        (fun q => .ok q)).1 =
      .error (.notFound "the metadata of network 'n1' vanished") := by
  have h := core_delete_post coreC6 stC6 { coreC6 with shielded := none }
    (Core.Delete coreC6 stC6).2 rfl rfl
  exact ⟨h.2.2.2.1, h.2.2.2.2.1, h.2.2.2.2.2 (fun q => .ok q)⟩

/-- C9: `Core.Read` on an instance already carrying a payload fails fast
with `NotAvailable("metadata is already carrying a value")`; the outcome
does not depend on the storage at all (the guard precedes any storage
access), and the pure embedding returns no updated core, so the carried
payload and the cached identity are untouched. -/
theorem core_read_already_carrying (c : Core) (st : Storage) (ref : String)
    (p : Payload) (hnull : c.IsNull = false) (href : ref ≠ "")
    (hsh : c.shielded = some p) :
    Core.Read c st ref =
      .error (.notAvailable "metadata is already carrying a value")
    ∧ ∀ st₂ : Storage, Core.Read c st ref = Core.Read c st₂ ref := by
  have h1 : ∀ st₀ : Storage, Core.Read c st₀ ref =
      .error (.notAvailable "metadata is already carrying a value") := by
    intro st₀
    simp [Core.Read, hnull, href, hsh]
  exact ⟨h1 st, fun st₂ => by rw [h1 st, h1 st₂]⟩

/-- C9 witness: a concrete carrying core refuses `Read` identically on two
different storages. -/
theorem core_read_already_carrying_witness :
    Core.Read coreC6 { byID := [], byName := [] } "n1" =
      .error (.notAvailable "metadata is already carrying a value")
    ∧ Core.Read coreC6 { byID := [], byName := [] } "n1" =
      Core.Read coreC6 stC6 "n1" := by
  have h := core_read_already_carrying coreC6 { byID := [], byName := [] } "n1"
    ⟨"i1", "n1", "x"⟩ rfl (by decide) rfl
  exact ⟨h.1, h.2 stC6⟩

/-- A retry loop whose action keeps failing with a non-StopRetry error
exhausts its budget and times out. -/
theorem retryLoop_const_error {α : Type} (e : FailErr)
    (he : ∀ e', e ≠ .stopRetry e') (action : Nat → Except FailErr α)
    (ha : ∀ t, action t = .error e) :
    ∀ fuel t, retryLoop action t fuel = .timedOut := by
  intro fuel
  induction fuel with
  | zero => intro t; rfl
  | succ n ih =>
    intro t
    simp only [retryLoop, ha t]
    cases e with
    | stopRetry e' => exact absurd rfl (he e')
    | notFound m => exact ih (t + 1)
    | notAvailable m => exact ih (t + 1)
    | invalidInstance => exact ih (t + 1)
    | invalidParameter a b => exact ih (t + 1)
    | duplicate m => exact ih (t + 1)
    | invalidRequest m => exact ih (t + 1)
    | timeout m => exact ih (t + 1)
    | aborted => exact ih (t + 1)
    | inconsistent m => exact ih (t + 1)
    | retryTimeout m => exact ih (t + 1)
    | wrap m c => exact ih (t + 1)
    | errList l => exact ih (t + 1)
    | withConsequence a b => exact ih (t + 1)
    | other m => exact ih (t + 1)

/-- C4: `Core.Read` resolves its reference as an id first and as a name
only on NotFound; inside the 10-attempt (1-second delay, 10-second
budget) retry loop a NotFound failure is the only retried outcome, any
other failure stops the loop at once via the `StopRetryError` wrapper,
and an exhausted budget converts to
`NotFound("failed to load metadata of <kind> '<ref>'")`. -/
theorem core_read_retry_spec (c : Core) (st : Storage) (ref : String)
    (hnull : c.IsNull = false) (href : ref ≠ "") (hsh : c.shielded = none) :
    (∀ c₁, c.readByID st ref = .ok c₁ → c.readByReference st ref = .ok c₁)
    ∧ (∀ e, c.readByID st ref = .error e → e.isNotFound = true →
        c.readByReference st ref = c.readByName st ref)
    ∧ (∀ e, c.readByID st ref = .error e → e.isNotFound = false →
        c.readByReference st ref = .error e)
    ∧ (∀ (t fuel : Nat) (e : FailErr),
        c.readAttempt st ref = .error e → e.isNotFound = true →
        retryLoop (fun _ => c.readAttempt st ref) t (fuel + 1) =
          retryLoop (fun _ => c.readAttempt st ref) (t + 1) fuel)
    ∧ (∀ e, c.readByReference st ref = .error e → e.isNotFound = false →
        Core.Read c st ref = .error (.stopRetry e))
    ∧ (∀ e, c.readByReference st ref = .error e → e.isNotFound = true →
        Core.Read c st ref = .error (.notFound
          ("failed to load metadata of " ++ c.kind ++ " '" ++ ref ++ "'"))) := by
  refine ⟨?_, ?_, ?_, ?_, ?_, ?_⟩
  · intro c₁ h
    simp [Core.readByReference, h]
  · intro e h hnf
    simp [Core.readByReference, h, hnf]
  · intro e h hnf
    simp [Core.readByReference, h, hnf]
  · intro t fuel e h hnf
    cases e <;> simp [FailErr.isNotFound] at hnf
    simp [retryLoop, h]
  · intro e h hnf
    have hatt : c.readAttempt st ref = .error (.stopRetry e) := by
      simp [Core.readAttempt, h, hnf]
    have hloop : retryLoop (fun _ => c.readAttempt st ref) 0 10 =
        .stopped (.stopRetry e) := by
      rw [show (10 : Nat) = 9 + 1 from rfl]
      simp [retryLoop, hatt]
    simp [Core.Read, hnull, href, hsh, hloop]
  · intro e h hnf
    have hatt : c.readAttempt st ref = .error e := by
      simp [Core.readAttempt, h, hnf]
    obtain ⟨m, rfl⟩ : ∃ m, e = .notFound m := by
      cases e <;> simp [FailErr.isNotFound] at hnf
      exact ⟨_, rfl⟩
    have hloop : retryLoop (fun _ => c.readAttempt st ref) 0 10 = .timedOut :=
      retryLoop_const_error (.notFound m) (fun e' => by simp)
        (fun _ => c.readAttempt st ref) (fun t => hatt) 10 0
    simp [Core.Read, hnull, href, hsh, hloop]

/-- C4 witness: on an empty storage both resolutions miss, every attempt
is NotFound, the loop times out and `Read` reports the converted NotFound
with the kind and the reference in the message. -/
theorem core_read_retry_spec_witness :
    Core.Read { kind := "network", shielded := none, id := "", name := "" }
        { byID := [], byName := [] } "net1" =
      .error (.notFound "failed to load metadata of network 'net1'") := by
  have h := (core_read_retry_spec
    { kind := "network", shielded := none, id := "", name := "" }
    { byID := [], byName := [] } "net1" rfl (by decide) rfl).2.2.2.2.2
    (.notFound "failed to find metadata entry 'net1'") rfl rfl
  exact h

/-! ## network.Delete (src/unnamed/part_001:939-1099)

`Delete` runs under the writer lock an `Alter` whose callback first
refuses when `hosts.v1` still lists attached hosts, then checks the abort
flag, deletes the gateways, the VIP and the provider network, and — only
when the callback succeeded, since an error aborts the `Alter` — deletes
the metadata through `objn.core.Delete`.  The payload (`an`) and the
`hosts.v1` content are the values the `Alter`'s mandatory reload produced;
external collaborators (LoadHost, the provider driver) are oracles, and
every provider-driver call is recorded in a trace. -/

/-- The fields of `abstract.Network` that `Delete` consults.  `hasVIP`
models `an.VIP != nil`. -/
structure AbstractNetwork where
  id : String
  name : String
  gatewayID : String
  secondaryGatewayID : String
  hasVIP : Bool
deriving DecidableEq, Repr

/-- A provider-driver call made by `Delete` (`svc.DeleteHost`,
`svc.DeleteVIP`, `svc.DeleteNetwork`, `svc.GetNetwork`). -/
inductive ProvCall : Type where
  | deleteHost (id : String)
  | deleteVIP
  | deleteNetwork (id : String)
  | getNetwork (id : String)
deriving DecidableEq, Repr

/-- What one `svc.GetNetwork` poll of the waitMore loop observes. -/
inductive PollResult : Type where
  | gone
  | stillThere
  | failed (e : FailErr)
deriving Repr

/-- The identity of a loaded gateway host resource. -/
structure GatewayHandle where
  id : String
  name : String
deriving DecidableEq, Repr

/-- Oracles for the external collaborators of `network.Delete`:
`LoadHost` (a metadata read, not a provider call), `svc.DeleteHost`,
the gateway's `core.Delete`, `svc.DeleteVIP`, `svc.DeleteNetwork`, and
the `svc.GetNetwork` polls (indexed by the second at which they run)
with the `temporal.GetContextTimeout()` budget in seconds. -/
structure DeleteEnv where
  loadHost : String → Except FailErr GatewayHandle
  provDeleteHost : String → Option FailErr
  metaDeleteHost : String → Option FailErr
  provDeleteVIP : Option FailErr
  provDeleteNetwork : Option FailErr
  getNetwork : Nat → PollResult
  contextTimeoutSecs : Nat

/-- Modelled from the spec: `strprocess.Plural` (package
lib/utils/strprocess is not in the snapshot) renders the plural suffix,
`"s"` for a count above one and `""` otherwise. -/
def plural (n : Nat) : String := if n > 1 then "s" else ""

/-- The refusal message of `network.Delete` when hosts are still attached:
`"cannot delete network '<name>': <N> host<s> <is|are> still attached to
it: <names joined by comma-space>"`, the names being the keys of
`hosts.v1.ByName` (Go map iteration order is unspecified; the embedding
uses the association-list order). -/
def networkDeleteRefusalMsg (networkName : String)
    (hostsByName : List (String × String)) : String :=
  "cannot delete network '" ++ networkName ++ "': "
    ++ toString hostsByName.length ++ " host" ++ plural hostsByName.length
    ++ " " ++ (if hostsByName.length = 1 then "is" else "are")
    ++ " still attached to it: "
    ++ String.intercalate ", " (hostsByName.map Prod.fst)

/-- The type switch arm for `*fail.ErrTimeout`. -/
def FailErr.isTimeout : FailErr → Bool
  | .timeout _ => true
  | _ => false

/-- `deleteGateway` with its provider call recorded: `svc.DeleteHost` is
always attempted (followed by the metadata deletion, which is not a
provider call). -/
def deleteGatewayTraced (env : DeleteEnv) (gw : GatewayHandle) :
    Option FailErr × List ProvCall :=
  (deleteGatewayResult gw.name (env.provDeleteHost gw.id)
      (env.metaDeleteHost gw.id),
    [.deleteHost gw.id])

/-- One gateway block of `Delete` (run for the primary, then for the
secondary): skip when the id is empty; `LoadHost` NotFound means the
gateway is already gone (log and continue), any other load failure
returns; then `deleteGateway`, whose NotFound outcome is logged and
tolerated while any other failure returns. -/
def deleteGatewayStep (env : DeleteEnv) (gwID : String) :
    Option FailErr × List ProvCall :=
  if gwID = "" then (none, [])
  else
    match env.loadHost gwID with
    | .error e => if e.isNotFound then (none, []) else (some e, [])
    | .ok rh =>
      let r := deleteGatewayTraced env rh
      match r.1 with
      | none => (none, r.2)
      | some e => if e.isNotFound then (none, r.2) else (some e, r.2)

/-- The `GetNetwork` polls the waitMore loop performs: one per second
until the network is gone or the context budget runs out. -/
def pollTrace (env : DeleteEnv) (netID : String) : Nat → Nat → List ProvCall
  | _, 0 => []
  | t, fuel + 1 =>
    .getNetwork netID ::
      (match env.getNetwork t with
       | .gone => []
       | _ => pollTrace env netID (t + 1) fuel)

/-- The waitMore loop after a `DeleteNetwork` timeout: retry once per
second under the context budget; a poll that sees the network gone
(GetNetwork NotFound) succeeds, a poll that still sees it or fails
otherwise is retried; an exhausted budget yields the retry timeout. -/
def waitMoreResult (env : DeleteEnv) : Option FailErr :=
  match retryLoop (fun t =>
      match env.getNetwork t with
      | .gone => Except.ok ()
      | .stillThere => Except.error (.other "still there")
      | .failed e => Except.error (.wrap "another kind of error" e))
    0 env.contextTimeoutSecs with
  | .ok _ => none
  | .stopped e => some e
  | .timedOut => some (.retryTimeout "retries timed out")

/-- The callback `network.Delete` passes to `Alter`, with its provider
call trace.  In order: the hosts.v1 refusal guard, the abort checkpoint,
the two gateway blocks, the VIP deletion (failure logged only), the
provider network deletion — whose NotFound is returned, whose Timeout
triggers the waitMore polls (a failed wait is attached as a consequence),
and whose other failures are logged and returned at the end. -/
def networkDeleteCallback (an : AbstractNetwork)
    (hostsByName : List (String × String)) (taskAborted : Bool)
    (env : DeleteEnv) : Option FailErr × List ProvCall :=
  if hostsByName.length > 0 then
    (some (.notAvailable (networkDeleteRefusalMsg an.name hostsByName)), [])
  else if taskAborted then (some .aborted, [])
  else
    let r1 := deleteGatewayStep env an.gatewayID
    match r1.1 with
    | some e => (some e, r1.2)
    | none =>
      let r2 := deleteGatewayStep env an.secondaryGatewayID
      match r2.1 with
      | some e => (some e, r1.2 ++ r2.2)
      | none =>
        let vipTrace := if an.hasVIP then [ProvCall.deleteVIP] else []
        let base := r1.2 ++ r2.2 ++ vipTrace ++ [ProvCall.deleteNetwork an.id]
        match env.provDeleteNetwork with
        | none => (none, base)
        | some e =>
          if e.isNotFound then (some e, base)
          else if e.isTimeout then
            let polls := pollTrace env an.id 0 env.contextTimeoutSecs
            match waitMoreResult env with
            | none => (some e, base ++ polls)
            | some w => (some (.withConsequence e w), base ++ polls)
          else (some e, base)

/-- The outcome of a whole `network.Delete`: the returned error, the
provider calls made, and whether the final metadata deletion
(`objn.core.Delete`) was reached. -/
structure NetworkDeleteOutcome where
  result : Option FailErr
  calls : List ProvCall
  metadataDeleted : Bool
deriving Repr

/-- `network.Delete`: the `Alter` around the callback (an error from the
callback aborts the `Alter` before its write and is returned unchanged),
then `objn.core.Delete` only on success. -/
def networkDelete (an : AbstractNetwork)
    (hostsByName : List (String × String)) (taskAborted : Bool)
    (env : DeleteEnv) : NetworkDeleteOutcome :=
  let r := networkDeleteCallback an hostsByName taskAborted env
  match r.1 with
  | some e => { result := some e, calls := r.2, metadataDeleted := false }
  | none => { result := none, calls := r.2, metadataDeleted := true }

/-- C1: when `hosts.v1` still lists attached hosts, `network.Delete`
returns `NotAvailable` with the message naming them, makes no provider
call at all, and never reaches the metadata deletion. -/
theorem network_delete_attached_hosts (an : AbstractNetwork)
    (hostsByName : List (String × String)) (aborted : Bool) (env : DeleteEnv)
    (h : hostsByName ≠ []) :
    (networkDelete an hostsByName aborted env).result =
      some (.notAvailable ("cannot delete network '" ++ an.name ++ "': "
        ++ toString hostsByName.length ++ " host" ++ plural hostsByName.length
        ++ " " ++ (if hostsByName.length = 1 then "is" else "are")
        ++ " still attached to it: "
        ++ String.intercalate ", " (hostsByName.map Prod.fst)))
    ∧ (networkDelete an hostsByName aborted env).calls = []
    ∧ (networkDelete an hostsByName aborted env).metadataDeleted = false := by
  have hlen : hostsByName.length > 0 := List.length_pos.mpr h
  refine ⟨?_, ?_, ?_⟩ <;>
    simp [networkDelete, networkDeleteCallback, hlen, networkDeleteRefusalMsg]

/-- C1 witness: a network with one attached host `h1`; the refusal
message matches the end-to-end scenario of the spec and no provider call
is made. -/
theorem network_delete_attached_hosts_witness :
    (networkDelete
        { id := "nid", name := "n1", gatewayID := "g1",
          secondaryGatewayID := "", hasVIP := true }
        [("h1", "id-h1")] false
        { loadHost := fun _ => .error (.notFound "no such host"),
          provDeleteHost := fun _ => none, metaDeleteHost := fun _ => none,
          provDeleteVIP := none, provDeleteNetwork := none,
          getNetwork := fun _ => .gone, contextTimeoutSecs := 60 }).result =
      some (.notAvailable
        "cannot delete network 'n1': 1 host is still attached to it: h1")
    ∧ (networkDelete
        { id := "nid", name := "n1", gatewayID := "g1",
          secondaryGatewayID := "", hasVIP := true }
        [("h1", "id-h1")] false
        { loadHost := fun _ => .error (.notFound "no such host"),
          provDeleteHost := fun _ => none, metaDeleteHost := fun _ => none,
          provDeleteVIP := none, provDeleteNetwork := none,
          getNetwork := fun _ => .gone, contextTimeoutSecs := 60 }).calls = [] := by
  have h := network_delete_attached_hosts
    { id := "nid", name := "n1", gatewayID := "g1",
      secondaryGatewayID := "", hasVIP := true }
    [("h1", "id-h1")] false
    { loadHost := fun _ => .error (.notFound "no such host"),
      provDeleteHost := fun _ => none, metaDeleteHost := fun _ => none,
      provDeleteVIP := none, provDeleteNetwork := none,
      getNetwork := fun _ => .gone, contextTimeoutSecs := 60 }
    (by simp)
  exact ⟨h.1, h.2.1⟩
